import Mathlib

/-!
Verification of the STMF405-Common inverter driver model.

The repository provides `amk_inverter.h` (AMK Racing Kit inverter CAN node)
and `src/peripherals/mc24lc32.h` (Microchip 24LC32 I2C EEPROM driver).
The headers declare the data model and the operations; this file embeds them
shallowly in Lean and proves the behavioural properties stated in the
repository's specification.  Where only a declaration is available in the
sources, the corresponding definition is modelled from the specification's
description and marked as such in its doc comment.
-/

-- Data model -----------------------------------------------------------------

/-- The `amkInverterState_t` enumeration of `amk_inverter.h`: the generalized
state of an AMK inverter, ordered by relative priority. -/
inductive amkInverterState_t where
  | AMK_STATE_INVALID
  | AMK_STATE_ERROR
  | AMK_STATE_READY_LOW_VOLTAGE
  | AMK_STATE_READY_HIGH_VOLTAGE
  | AMK_STATE_READY_ENERGIZED
  deriving DecidableEq

/-- The numeric value each enumerator carries in the C source:
`AMK_STATE_INVALID = 0`, `AMK_STATE_ERROR = 1`,
`AMK_STATE_READY_LOW_VOLTAGE = 5`, `AMK_STATE_READY_HIGH_VOLTAGE = 6`,
`AMK_STATE_READY_ENERGIZED = 7`. -/
def amkInverterState_t.val : amkInverterState_t → Nat
  | .AMK_STATE_INVALID => 0
  | .AMK_STATE_ERROR => 1
  | .AMK_STATE_READY_LOW_VOLTAGE => 5
  | .AMK_STATE_READY_HIGH_VOLTAGE => 6
  | .AMK_STATE_READY_ENERGIZED => 7

/-- The `amkInverter_t` structure of `amk_inverter.h`.  `dataValid` stands for
the transport's staleness predicate (the `CAN_NODE_FIELDS` block, whose header
is not among the sources; the spec states it is true only if a telemetry frame
was received within the timeout period).  The C float telemetry fields are
modelled as rationals. -/
structure amkInverter_t where
  dataValid : Bool
  baseId : Nat
  systemReady : Bool
  error : Bool
  warning : Bool
  quitDcOn : Bool
  dcOn : Bool
  quitInverter : Bool
  inverterOn : Bool
  derating : Bool
  actualTorque : Rat
  actualSpeed : Rat
  dcBusVoltage : Rat
  torqueCurrent : Rat
  actualPower : Rat
  deriving DecidableEq

-- Telemetry model ------------------------------------------------------------

/-- Modelled from the spec: the body of `amkGetState` (declared at
`amk_inverter.h` line 105) is not among the source files.  Spec section 4.1
gives its derivation, evaluated in strict priority order with first match
winning: stale data is `INVALID`; a reported error is `ERROR`; a completed
inverter handshake is `READY_ENERGIZED`; a completed DC-bus handshake is
`READY_HIGH_VOLTAGE`; a bare ready flag is `READY_LOW_VOLTAGE`; anything else
is conservatively `INVALID`. -/
def amkGetState (amk : amkInverter_t) : amkInverterState_t :=
  if !amk.dataValid then .AMK_STATE_INVALID
  else if amk.error then .AMK_STATE_ERROR
  else if amk.quitInverter && amk.inverterOn then .AMK_STATE_READY_ENERGIZED
  else if amk.quitDcOn && amk.dcOn then .AMK_STATE_READY_HIGH_VOLTAGE
  else if amk.systemReady then .AMK_STATE_READY_LOW_VOLTAGE
  else .AMK_STATE_INVALID

-- Fleet aggregation ----------------------------------------------------------

/-- The state of lower priority (smaller numeric value) of two inverter
states; on a tie the first argument is kept. -/
def amkStateMin (a b : amkInverterState_t) : amkInverterState_t :=
  if b.val < a.val then b else a

/-- Modelled from the spec: the body of `amksGetState` (declared at
`amk_inverter.h` line 115) is not among the source files.  Spec section 4.3
states it returns the minimum-priority state (numerically smallest value)
across all fleet members, the fleet being a caller-owned sequence of at least
one node; an empty fleet is a caller error, arbitrarily mapped to `INVALID`
here. -/
def amksGetState : List amkInverter_t → amkInverterState_t
  | [] => .AMK_STATE_INVALID
  | amk :: rest =>
    rest.foldl (fun s a => amkStateMin s (amkGetState a)) (amkGetState amk)

/-- Modelled from the spec: the body of `amksGetCumulativePower` (declared at
`amk_inverter.h` line 123) is not among the source files.  Spec section 4.3
states it returns the arithmetic sum of `actualPower` over exactly the members
with valid data; members with invalid data contribute zero. -/
def amksGetCumulativePower (amks : List amkInverter_t) : Rat :=
  amks.foldl (fun p a => if a.dataValid then p + a.actualPower else p) 0

-- Concrete nodes used in the specification's scenarios -----------------------

/-- A node with a completed inverter handshake: `amkGetState` yields
`AMK_STATE_READY_ENERGIZED`. -/
def amkNodeEnergized : amkInverter_t :=
  { dataValid := true, baseId := 0, systemReady := true, error := false,
    warning := false, quitDcOn := true, dcOn := true, quitInverter := true,
    inverterOn := true, derating := false, actualTorque := 0, actualSpeed := 0,
    dcBusVoltage := 0, torqueCurrent := 0, actualPower := 12000 }

/-- A node reporting an error: `amkGetState` yields `AMK_STATE_ERROR`. -/
def amkNodeError : amkInverter_t :=
  { dataValid := true, baseId := 1, systemReady := true, error := true,
    warning := false, quitDcOn := true, dcOn := true, quitInverter := false,
    inverterOn := false, derating := false, actualTorque := 0, actualSpeed := 0,
    dcBusVoltage := 0, torqueCurrent := 0, actualPower := 0 }

/-- A node whose telemetry is stale (`dataValid = false`) while its last
received `actualPower` is `5000.0`. -/
def amkNodeStale : amkInverter_t :=
  { dataValid := false, baseId := 2, systemReady := true, error := false,
    warning := false, quitDcOn := true, dcOn := true, quitInverter := true,
    inverterOn := true, derating := false, actualTorque := 0, actualSpeed := 0,
    dcBusVoltage := 0, torqueCurrent := 0, actualPower := 5000 }

/-- A ready, error-free node with the DC bus not yet charged:
`amkGetState` yields `AMK_STATE_READY_LOW_VOLTAGE`. -/
def amkNodeLowVoltage : amkInverter_t :=
  { dataValid := true, baseId := 3, systemReady := true, error := false,
    warning := false, quitDcOn := false, dcOn := false, quitInverter := false,
    inverterOn := false, derating := false, actualTorque := 0, actualSpeed := 0,
    dcBusVoltage := 0, torqueCurrent := 0, actualPower := 0 }

-- Command encoder ------------------------------------------------------------

/-- The ChibiOS message result returned by a CAN transmit: success, timeout,
or bus/transport failure. -/
inductive msg_t where
  | MSG_OK
  | MSG_TIMEOUT
  | MSG_RESET
  deriving DecidableEq

/-- The semantic content of an outbound AMK setpoint frame: the identifier
derived from the node's base identifier, the control bits, and the torque
setpoint and limits.  The exact byte layout of the frame is an open question
of the spec and is not modelled. -/
structure amkCommandFrame where
  sid : Nat
  dcOnBit : Bool
  inverterOnBit : Bool
  errorResetBit : Bool
  torqueSetpoint : Rat
  torqueLimitPositive : Rat
  torqueLimitNegative : Rat

/-- Modelled from the spec: the body of `amkSendEnergizationRequest` (declared
at `amk_inverter.h` line 134) is not among the source files.  Spec section 4.2
states it builds a single outbound frame requesting energization or
de-energization and awaits transmit completion up to the timeout, returning
only the transmission result; the node's telemetry is not modified.  The bus
is modelled by the `transmit` oracle; the result is paired with the node as it
is after the call. -/
def amkSendEnergizationRequest (transmit : amkCommandFrame → Nat → msg_t)
    (amk : amkInverter_t) (energized : Bool) (timeout : Nat) :
    msg_t × amkInverter_t :=
  (transmit
    { sid := amk.baseId, dcOnBit := energized, inverterOnBit := energized,
      errorResetBit := false, torqueSetpoint := 0, torqueLimitPositive := 0,
      torqueLimitNegative := 0 } timeout, amk)

/-- Modelled from the spec: the body of `amkSendTorqueRequest` (declared at
`amk_inverter.h` lines 146-147) is not among the source files.  Spec section
4.2 states it sends a torque setpoint with limits, implicitly also requesting
energization, and returns only the transmission result; the node's telemetry
is not modified. -/
def amkSendTorqueRequest (transmit : amkCommandFrame → Nat → msg_t)
    (amk : amkInverter_t)
    (torqueRequest torqueLimitPositive torqueLimitNegative : Rat)
    (timeout : Nat) : msg_t × amkInverter_t :=
  (transmit
    { sid := amk.baseId, dcOnBit := true, inverterOnBit := true,
      errorResetBit := false, torqueSetpoint := torqueRequest,
      torqueLimitPositive := torqueLimitPositive,
      torqueLimitNegative := torqueLimitNegative } timeout, amk)

/-- Modelled from the spec: the body of `amkSendErrorResetRequest` (declared
at `amk_inverter.h` line 155) is not among the source files.  Spec section 4.2
states it sends a request to clear latched errors and returns only the
transmission result; the node's telemetry is not modified. -/
def amkSendErrorResetRequest (transmit : amkCommandFrame → Nat → msg_t)
    (amk : amkInverter_t) (timeout : Nat) : msg_t × amkInverter_t :=
  (transmit
    { sid := amk.baseId, dcOnBit := false, inverterOnBit := false,
      errorResetBit := true, torqueSetpoint := 0, torqueLimitPositive := 0,
      torqueLimitNegative := 0 } timeout, amk)

-- MC24LC32 EEPROM driver -----------------------------------------------------

/-- Memory size of the MC24LC32 EEPROM in bytes (`mc24lc32.h`). -/
def MC24LC32_SIZE : Nat := 4096

/-- The `mc24lc32State_t` enumeration of `mc24lc32.h`. -/
inductive mc24lc32State_t where
  | MC24LC32_STATE_FAILED
  | MC24LC32_STATE_INVALID
  | MC24LC32_STATE_READY
  deriving DecidableEq

/-- The `mc24lc32_t` structure of `mc24lc32.h`: device state, I2C address,
magic string, and the cached copy of the EEPROM's contents.  The cache is
modelled as a function from byte addresses to byte values; the magic string as
a list of bytes. -/
structure mc24lc32_t where
  state : mc24lc32State_t
  addr : Nat
  magicString : List Nat
  cache : Nat → Nat

/-- The list of cache indices a write of `dataCount` bytes starting at
`address` accesses: `address, address + 1, ..., address + dataCount - 1`. -/
def mc24lc32AccessedIndices (address dataCount : Nat) : List Nat :=
  (List.range dataCount).map (fun i => address + i)

/-- Modelled from the spec: the body of `mc24lc32WriteThrough` (declared at
`mc24lc32.h` line 102) is not among the source files.  Per the header it
writes the given data into the cache starting at `address` and transmits the
same bytes to the device; the write cannot cross a 32-byte page boundary.
Only the cache update is modelled. -/
def mc24lc32WriteThrough (m : mc24lc32_t) (address : Nat) (data : List Nat) :
    mc24lc32_t :=
  { m with cache := fun i =>
      if h : address ≤ i ∧ i < address + data.length then
        data.get ⟨i - address, by omega⟩
      else m.cache i }

/-- Modelled from the spec: the body of `mc24lc32IsValid` (declared at
`mc24lc32.h` line 109) is not among the source files.  Per the header the
magic string validates the EEPROM's contents: the cache is valid when it
starts with the magic string. -/
def mc24lc32IsValid (m : mc24lc32_t) : Bool :=
  (List.range m.magicString.length).map m.cache == m.magicString

/-- Modelled from the spec: the body of `mc24lc32Validate` (declared at
`mc24lc32.h` line 115) is not among the source files.  Per the header it
validates the cached memory — the magic string is written at the start of the
cache — touching nothing else; changes are committed to the device only on
the next write. -/
def mc24lc32Validate (m : mc24lc32_t) : mc24lc32_t :=
  { m with cache := fun i =>
      if h : i < m.magicString.length then m.magicString.get ⟨i, h⟩
      else m.cache i }

/-- Modelled from the spec: the body of `mc34lc32Invalidate` (declared at
`mc24lc32.h` line 121, with the repository's own spelling) is not among the
source files.  Per the header it invalidates the cached memory — the first
byte of the magic-string region is overwritten with the bitwise complement of
the magic string's first byte — touching nothing else; changes are committed
to the device only on the next write. -/
def mc34lc32Invalidate (m : mc24lc32_t) : mc24lc32_t :=
  { m with cache := fun i =>
      if i = 0 then 255 - m.magicString.headD 0 else m.cache i }

/-- A concrete device used to witness the EEPROM theorems: a two-byte magic
string over an all-zero cache. -/
def mc24lc32Device : mc24lc32_t :=
  { state := .MC24LC32_STATE_READY, addr := 80, magicString := [77, 67],
    cache := fun _ => 0 }

-- Helper lemmas for the fleet fold -------------------------------------------

lemma amkStateMin_le_left (a b : amkInverterState_t) :
    (amkStateMin a b).val ≤ a.val := by
  unfold amkStateMin; split <;> omega

lemma amkStateMin_le_right (a b : amkInverterState_t) :
    (amkStateMin a b).val ≤ b.val := by
  unfold amkStateMin; split <;> omega

lemma amkStateMin_cases (a b : amkInverterState_t) :
    amkStateMin a b = a ∨ amkStateMin a b = b := by
  unfold amkStateMin; split
  · exact Or.inr rfl
  · exact Or.inl rfl

lemma amkFold_le_init (l : List amkInverter_t) (s : amkInverterState_t) :
    (l.foldl (fun s a => amkStateMin s (amkGetState a)) s).val ≤ s.val := by
  induction l generalizing s with
  | nil => exact Nat.le_refl _
  | cons a l ih =>
    exact Nat.le_trans (ih (amkStateMin s (amkGetState a)))
      (amkStateMin_le_left _ _)

lemma amkFold_le_mem (l : List amkInverter_t) (s : amkInverterState_t)
    (b : amkInverter_t) (hb : b ∈ l) :
    (l.foldl (fun s a => amkStateMin s (amkGetState a)) s).val
      ≤ (amkGetState b).val := by
  induction l generalizing s with
  | nil => cases hb
  | cons a l ih =>
    rcases List.mem_cons.mp hb with h | h
    · subst h
      exact Nat.le_trans (amkFold_le_init l (amkStateMin s (amkGetState b)))
        (amkStateMin_le_right _ _)
    · exact ih _ h

lemma amkFold_mem (l : List amkInverter_t) (s : amkInverterState_t) :
    l.foldl (fun s a => amkStateMin s (amkGetState a)) s = s
      ∨ l.foldl (fun s a => amkStateMin s (amkGetState a)) s
          ∈ l.map amkGetState := by
  induction l generalizing s with
  | nil => exact Or.inl rfl
  | cons a l ih =>
    rcases ih (amkStateMin s (amkGetState a)) with h | h
    · rw [List.foldl_cons, h]
      rcases amkStateMin_cases s (amkGetState a) with h2 | h2
      · exact Or.inl h2
      · exact Or.inr (by rw [h2]; exact List.mem_cons_self _ _)
    · exact Or.inr (List.mem_cons_of_mem _ h)

lemma amkCumulative_aux (l : List amkInverter_t) (p : Rat) :
    l.foldl (fun p a => if a.dataValid then p + a.actualPower else p) p
      = p + ((l.filter (fun a => a.dataValid)).map
          (fun a => a.actualPower)).sum := by
  induction l generalizing p with
  | nil => simp
  | cons a l ih =>
    by_cases ha : a.dataValid = true
    · simp [ha, ih, add_assoc]
    · simp only [Bool.not_eq_true] at ha
      simp [ha, ih]

-- Theorems -------------------------------------------------------------------

/-- C4: the `amkInverterState_t` enumeration carries exactly the numeric
values `INVALID = 0`, `ERROR = 1`, `READY_LOW_VOLTAGE = 5`,
`READY_HIGH_VOLTAGE = 6`, `READY_ENERGIZED = 7`, strictly ordered so that a
lower numeric value means lower readiness, and every enumerator's value is one
of these five (the gaps hold no state). -/
theorem amkInverterState_values :
    amkInverterState_t.AMK_STATE_INVALID.val = 0
    ∧ amkInverterState_t.AMK_STATE_ERROR.val = 1
    ∧ amkInverterState_t.AMK_STATE_READY_LOW_VOLTAGE.val = 5
    ∧ amkInverterState_t.AMK_STATE_READY_HIGH_VOLTAGE.val = 6
    ∧ amkInverterState_t.AMK_STATE_READY_ENERGIZED.val = 7
    ∧ amkInverterState_t.AMK_STATE_INVALID.val < amkInverterState_t.AMK_STATE_ERROR.val
    ∧ amkInverterState_t.AMK_STATE_ERROR.val < amkInverterState_t.AMK_STATE_READY_LOW_VOLTAGE.val
    ∧ amkInverterState_t.AMK_STATE_READY_LOW_VOLTAGE.val
        < amkInverterState_t.AMK_STATE_READY_HIGH_VOLTAGE.val
    ∧ amkInverterState_t.AMK_STATE_READY_HIGH_VOLTAGE.val
        < amkInverterState_t.AMK_STATE_READY_ENERGIZED.val
    ∧ ∀ s : amkInverterState_t,
        s.val = 0 ∨ s.val = 1 ∨ s.val = 5 ∨ s.val = 6 ∨ s.val = 7 := by
  refine ⟨rfl, rfl, rfl, rfl, rfl, by decide, by decide, by decide, by decide, ?_⟩
  intro s
  cases s <;> simp [amkInverterState_t.val]

/-- C1: `amkGetState` evaluates its conditions in strict priority order with
first match winning: stale data yields `INVALID`; otherwise an error yields
`ERROR`; otherwise `quitInverter && inverterOn` yields `READY_ENERGIZED`;
otherwise `quitDcOn && dcOn` yields `READY_HIGH_VOLTAGE`; otherwise
`systemReady` yields `READY_LOW_VOLTAGE`; otherwise the result is `INVALID`. -/
theorem amkGetState_priority (amk : amkInverter_t) :
    (amk.dataValid = false → amkGetState amk = .AMK_STATE_INVALID)
    ∧ (amk.dataValid = true → amk.error = true → amkGetState amk = .AMK_STATE_ERROR)
    ∧ (amk.dataValid = true → amk.error = false →
        (amk.quitInverter && amk.inverterOn) = true →
        amkGetState amk = .AMK_STATE_READY_ENERGIZED)
    ∧ (amk.dataValid = true → amk.error = false →
        (amk.quitInverter && amk.inverterOn) = false →
        (amk.quitDcOn && amk.dcOn) = true →
        amkGetState amk = .AMK_STATE_READY_HIGH_VOLTAGE)
    ∧ (amk.dataValid = true → amk.error = false →
        (amk.quitInverter && amk.inverterOn) = false →
        (amk.quitDcOn && amk.dcOn) = false → amk.systemReady = true →
        amkGetState amk = .AMK_STATE_READY_LOW_VOLTAGE)
    ∧ (amk.dataValid = true → amk.error = false →
        (amk.quitInverter && amk.inverterOn) = false →
        (amk.quitDcOn && amk.dcOn) = false → amk.systemReady = false →
        amkGetState amk = .AMK_STATE_INVALID) := by
  obtain ⟨dv, bid, sr, er, wa, qd, dc, qi, io, de, t1, t2, t3, t4, t5⟩ := amk
  cases dv <;> cases er <;> cases qi <;> cases io <;> cases qd <;> cases dc <;> cases sr <;>
    simp [amkGetState]

/-- Witness for C1: a node with valid data and the error bit set is reported
as `AMK_STATE_ERROR`. -/
theorem amkGetState_priority_witness :
    amkNodeError.dataValid = true ∧ amkNodeError.error = true
      ∧ amkGetState amkNodeError = .AMK_STATE_ERROR :=
  ⟨rfl, rfl, (amkGetState_priority amkNodeError).2.1 rfl rfl⟩

/-- C2: for every fleet of at least one node, `amksGetState` returns the
numerically smallest value among the per-node `amkGetState` results — it is a
lower bound of every member's state and is itself one of the members' states —
and the fleet `[READY_ENERGIZED, READY_ENERGIZED, ERROR]` yields `ERROR`. -/
theorem amksGetState_min (a : amkInverter_t) (l : List amkInverter_t) :
    (∀ b ∈ a :: l, (amksGetState (a :: l)).val ≤ (amkGetState b).val)
    ∧ amksGetState (a :: l) ∈ (a :: l).map amkGetState
    ∧ amksGetState [amkNodeEnergized, amkNodeEnergized, amkNodeError]
        = .AMK_STATE_ERROR := by
  refine ⟨?_, ?_, by decide⟩
  · intro b hb
    rcases List.mem_cons.mp hb with h | h
    · subst h
      exact amkFold_le_init l (amkGetState b)
    · exact amkFold_le_mem l (amkGetState a) b h
  · show l.foldl (fun s x => amkStateMin s (amkGetState x)) (amkGetState a)
        ∈ (a :: l).map amkGetState
    rcases amkFold_mem l (amkGetState a) with h | h
    · rw [h, List.map_cons]
      exact List.mem_cons_self _ _
    · rw [List.map_cons]
      exact List.mem_cons_of_mem _ h

/-- Witness for C2: over the two-node fleet `[energized, error]`, the group
state is a lower bound of the error node's state. -/
theorem amksGetState_min_witness :
    (amksGetState [amkNodeEnergized, amkNodeError]).val
      ≤ (amkGetState amkNodeError).val :=
  (amksGetState_min amkNodeEnergized [amkNodeError]).1 amkNodeError
    (List.mem_cons_of_mem _ (List.mem_cons_self _ _))

/-- C3: `amksGetCumulativePower` equals the sum of `actualPower` over exactly
the members with `dataValid = true` (invalid members contribute zero and do
not fail the computation), and the one-node fleet holding only the stale node
with `actualPower = 5000.0` yields `0.0`. -/
theorem amksGetCumulativePower_valid_sum (l : List amkInverter_t) :
    amksGetCumulativePower l
      = ((l.filter (fun a => a.dataValid)).map (fun a => a.actualPower)).sum
    ∧ amksGetCumulativePower [amkNodeStale] = 0 := by
  constructor
  · have h := amkCumulative_aux l 0
    rw [amksGetCumulativePower, h, zero_add]
  · decide

/-- C5: for a node with valid data and no error, additionally completing a
higher-tier handshake pair — `quitDcOn && dcOn`, or `quitInverter &&
inverterOn` on top of everything below it — or the `systemReady` flag yields a
state whose value is greater than or equal to the state obtained from the
original fields alone. -/
theorem amkGetState_monotone (amk : amkInverter_t)
    (hv : amk.dataValid = true) (he : amk.error = false) :
    (amkGetState amk).val
      ≤ (amkGetState { amk with systemReady := true }).val
    ∧ (amkGetState amk).val
      ≤ (amkGetState { amk with quitDcOn := true, dcOn := true }).val
    ∧ (amkGetState amk).val
      ≤ (amkGetState
          { amk with quitInverter := true, inverterOn := true }).val := by
  obtain ⟨dv, bid, sr, er, wa, qd, dc, qi, io, de, t1, t2, t3, t4, t5⟩ := amk
  simp only at hv he
  subst hv he
  cases qi <;> cases io <;> cases qd <;> cases dc <;> cases sr <;>
    simp [amkGetState, amkInverterState_t.val]

/-- Witness for C5: the low-voltage node upgraded with a completed inverter
handshake reports a state at least as high as before. -/
theorem amkGetState_monotone_witness :
    amkNodeLowVoltage.dataValid = true ∧ amkNodeLowVoltage.error = false
    ∧ (amkGetState amkNodeLowVoltage).val
      ≤ (amkGetState
          { amkNodeLowVoltage with
              quitInverter := true, inverterOn := true }).val :=
  ⟨rfl, rfl, (amkGetState_monotone amkNodeLowVoltage rfl rfl).2.2⟩

/-- C6: every command send returns the transmission result while leaving the
node's telemetry fields unchanged — whatever result the bus oracle produces —
and in particular a torque request on a node in `READY_LOW_VOLTAGE` leaves the
state returned by `amkGetState` at `READY_LOW_VOLTAGE`. -/
theorem amkSend_preserves_telemetry (transmit : amkCommandFrame → Nat → msg_t)
    (amk : amkInverter_t) (energized : Bool)
    (torqueRequest torqueLimitPositive torqueLimitNegative : Rat)
    (timeout : Nat) :
    (amkSendEnergizationRequest transmit amk energized timeout).2 = amk
    ∧ (amkSendTorqueRequest transmit amk torqueRequest torqueLimitPositive
        torqueLimitNegative timeout).2 = amk
    ∧ (amkSendErrorResetRequest transmit amk timeout).2 = amk
    ∧ amkGetState (amkSendTorqueRequest transmit amk torqueRequest
        torqueLimitPositive torqueLimitNegative timeout).2 = amkGetState amk
    ∧ amkGetState amkNodeLowVoltage = .AMK_STATE_READY_LOW_VOLTAGE
    ∧ amkGetState (amkSendTorqueRequest transmit amkNodeLowVoltage
        torqueRequest torqueLimitPositive torqueLimitNegative timeout).2
      = .AMK_STATE_READY_LOW_VOLTAGE :=
  ⟨rfl, rfl, rfl, rfl, rfl, rfl⟩

/-- C7: `amkGetState` is a pure deterministic function of the fields it reads:
any two nodes agreeing on `dataValid`, `error`, `quitInverter`, `inverterOn`,
`quitDcOn`, `dcOn` and `systemReady` are mapped to the same state, regardless
of every other field; the functional embedding returns only the state, so
evaluation modifies no field. -/
theorem amkGetState_pure (a b : amkInverter_t)
    (h1 : a.dataValid = b.dataValid) (h2 : a.error = b.error)
    (h3 : a.quitInverter = b.quitInverter) (h4 : a.inverterOn = b.inverterOn)
    (h5 : a.quitDcOn = b.quitDcOn) (h6 : a.dcOn = b.dcOn)
    (h7 : a.systemReady = b.systemReady) :
    amkGetState a = amkGetState b := by
  simp only [amkGetState, h1, h2, h3, h4, h5, h6, h7]

/-- Witness for C7: two energized nodes differing in `actualPower`,
`baseId` and `warning` are mapped to the same state. -/
theorem amkGetState_pure_witness :
    amkGetState amkNodeEnergized
      = amkGetState
          { amkNodeEnergized with
              actualPower := 5, baseId := 9, warning := true } :=
  amkGetState_pure _ _ rfl rfl rfl rfl rfl rfl rfl

/-- C8: `amkGetState` only ever produces one of the five declared enumerators,
whose values are exactly `{0, 1, 5, 6, 7}` — never a value in the reserved
gaps — and `amksGetState` over any non-empty fleet likewise. -/
theorem amkGetState_range (amk a : amkInverter_t) (l : List amkInverter_t) :
    ((amkGetState amk).val = 0 ∨ (amkGetState amk).val = 1
      ∨ (amkGetState amk).val = 5 ∨ (amkGetState amk).val = 6
      ∨ (amkGetState amk).val = 7)
    ∧ ((amksGetState (a :: l)).val = 0 ∨ (amksGetState (a :: l)).val = 1
      ∨ (amksGetState (a :: l)).val = 5 ∨ (amksGetState (a :: l)).val = 6
      ∨ (amksGetState (a :: l)).val = 7) := by
  constructor
  · cases amkGetState amk <;> simp [amkInverterState_t.val]
  · cases amksGetState (a :: l) <;> simp [amkInverterState_t.val]

/-- C9: under the precondition that the byte range `[address, address +
dataCount)` lies within a single 32-byte page and does not exceed
`MC24LC32_SIZE`, every cache index accessed by `mc24lc32WriteThrough` is
within the bounds of the 4096-byte cache, and no index outside the accessed
range is modified. -/
theorem mc24lc32WriteThrough_in_bounds (m : mc24lc32_t) (address : Nat)
    (data : List Nat) (_hpage : address % 32 + data.length ≤ 32)
    (hsize : address + data.length ≤ MC24LC32_SIZE) :
    (∀ i ∈ mc24lc32AccessedIndices address data.length, i < MC24LC32_SIZE)
    ∧ ∀ j, j ∉ mc24lc32AccessedIndices address data.length →
        (mc24lc32WriteThrough m address data).cache j = m.cache j := by
  constructor
  · intro i hi
    simp only [mc24lc32AccessedIndices, List.mem_map, List.mem_range] at hi
    obtain ⟨k, hk, rfl⟩ := hi
    omega
  · intro j hj
    show (if h : address ≤ j ∧ j < address + data.length then
        data.get ⟨j - address, by omega⟩ else m.cache j) = m.cache j
    rw [dif_neg]
    intro hrange
    refine hj ?_
    simp only [mc24lc32AccessedIndices, List.mem_map, List.mem_range]
    exact ⟨j - address, by omega, by omega⟩

/-- Witness for C9: writing two bytes at address 30 satisfies the
single-page precondition, and cache index 100 is untouched. -/
theorem mc24lc32WriteThrough_in_bounds_witness :
    30 % 32 + 2 ≤ 32 ∧ 30 + 2 ≤ MC24LC32_SIZE
    ∧ (mc24lc32WriteThrough mc24lc32Device 30 [1, 2]).cache 100
        = mc24lc32Device.cache 100 :=
  ⟨by decide, by decide,
    (mc24lc32WriteThrough_in_bounds mc24lc32Device 30 [1, 2] (by decide)
      (by decide)).2 100 (by decide)⟩

/-- C10: for a device with a non-empty magic string, `mc24lc32Validate` makes
a subsequent `mc24lc32IsValid` return `true`, `mc34lc32Invalidate` makes it
return `false`, and neither call changes any cache byte outside the validity
marker nor the device state (the model performs no hardware access; changes
are committed only on the next write). -/
theorem mc24lc32Validate_isValid (m : mc24lc32_t)
    (h : m.magicString ≠ []) :
    mc24lc32IsValid (mc24lc32Validate m) = true
    ∧ mc24lc32IsValid (mc34lc32Invalidate m) = false
    ∧ (∀ i, m.magicString.length ≤ i →
        (mc24lc32Validate m).cache i = m.cache i)
    ∧ (∀ i, i ≠ 0 → (mc34lc32Invalidate m).cache i = m.cache i)
    ∧ (mc24lc32Validate m).state = m.state
    ∧ (mc34lc32Invalidate m).state = m.state := by
  refine ⟨?_, ?_, ?_, ?_, rfl, rfl⟩
  · simp only [mc24lc32IsValid, beq_iff_eq, mc24lc32Validate]
    apply List.ext_getElem
    · simp
    · intro i h1 h2
      simp only [List.getElem_map, List.getElem_range]
      simp only [List.length_map, List.length_range] at h1
      rw [dif_pos h1]
      simp [List.get_eq_getElem]
  · simp only [mc24lc32IsValid, beq_eq_false_iff_ne]
    intro heq
    obtain ⟨st, ad, ms, ca⟩ := m
    cases ms with
    | nil => exact h rfl
    | cons b rest =>
      simp only [mc34lc32Invalidate, List.length_cons,
        List.range_succ_eq_map, List.map_cons, List.headD_cons] at heq
      injection heq with h1 h2
      rw [if_pos trivial] at h1
      omega
  · intro i hi
    show (if hlt : i < m.magicString.length then
        m.magicString.get ⟨i, hlt⟩ else m.cache i) = m.cache i
    rw [dif_neg (by omega)]
  · intro i hi
    show (if i = 0 then 255 - m.magicString.headD 0 else m.cache i)
      = m.cache i
    rw [if_neg hi]

/-- Witness for C10: on the concrete device, validation then the validity
check yields `true` and invalidation yields `false`. -/
theorem mc24lc32Validate_isValid_witness :
    mc24lc32Device.magicString ≠ []
    ∧ mc24lc32IsValid (mc24lc32Validate mc24lc32Device) = true
    ∧ mc24lc32IsValid (mc34lc32Invalidate mc24lc32Device) = false :=
  ⟨by decide, (mc24lc32Validate_isValid mc24lc32Device (by decide)).1,
    (mc24lc32Validate_isValid mc24lc32Device (by decide)).2.1⟩
